import Mathlib

/-
Verification of the standings-derivation engine of FootballStatsML.

The embedded code is:
  * `compute_table_from_schedule` and its column check
    (src/01_scripts/01a_scrapping_leagues_fbref.py, lines 50-104), and
  * `compute_ranking` together with `_find_column`
    (src/01_scripts/01a_APIscrapping/01ab_LeagueInit.py, lines 23-95).

The two Python functions share their aggregation/ranking core verbatim
(dual-perspective expansion, groupby-sum, GD/Pts derivation, multi-key
descending sort, position assignment); that common part is embedded once as
`tableFromMatches` below, and both top-level functions call it.

Pandas/Python behaviours relied on and modelled explicitly:
  * `str.lower` on the ASCII column names in play (`pyLower`);
  * `int(s)` on a string: surrounding whitespace stripped, optional sign,
    decimal digits (`pyInt`); a non-conforming string raises, modelled as
    `none`;
  * `Series.str.replace(old, new, regex=False)`: literal, non-overlapping,
    left-to-right replacement (`pyReplace`);
  * `Series.str.split("-", expand=True)`: per-row split on every occurrence
    of the separator (`pySplit`); the expanded frame has as many columns as
    the longest row's part list, shorter rows padded with nulls, so
    `goals.shape[1] < 2` holds iff every row splits into a single part, and
    `goals[1]` is null exactly on the rows with fewer than two parts;
  * `.astype(int)` on an object column: `int()` per element; a null or a
    non-numeric string raises an exception that the Python function does not
    catch (modelled as the `castException` outcome);
  * `groupby(key).sum()` with the default `sort=True`: one output row per
    distinct key, keys emitted in ascending order (Python string `<`, i.e.
    code-point lexicographic, `pyStrLt`);
  * `sort_values(by=[...], ascending=[False,...])` on several columns:
    stable lexicographic sort (pandas uses a stable lexsort whenever more
    than one key is given), modelled as a stable insertion sort;
  * `pd.concat([home, away])`: all home-perspective rows followed by all
    away-perspective rows;
  * `dropna(subset=...)`: keeps row order, drops rows with a null in any of
    the named columns.

Integer-valued columns are modelled by `Int`; the magnitudes produced by the
engine (match counts and goal sums) stay far below the `int64` range for any
realistic input, so 64-bit wrap-around is not modelled.
-/

/-! ### Python string primitives (character-list semantics) -/

/-- `str.lower` restricted to ASCII letters, which is all the column names
involved contain. -/
def pyCharLower (c : Char) : Char :=
  if 65 ≤ c.toNat ∧ c.toNat ≤ 90 then Char.ofNat (c.toNat + 32) else c

/-- `s.lower()` for the ASCII strings in play. -/
def pyLower (s : String) : String := String.mk (s.data.map pyCharLower)

/-- Code-point lexicographic `<` on character lists: Python string
comparison, which is also how pandas orders object (string) group keys. -/
def charListLt : List Char → List Char → Bool
  | [], [] => false
  | [], _ :: _ => true
  | _ :: _, [] => false
  | a :: as_, b :: bs =>
    if a.toNat < b.toNat then true
    else if b.toNat < a.toNat then false
    else charListLt as_ bs

/-- Python `s < t` on strings. -/
def pyStrLt (s t : String) : Bool := charListLt s.data t.data

/-- Value of a non-empty all-digit character list, accumulator form. -/
def digitsValAux : Nat → List Char → Option Nat
  | acc, [] => some acc
  | acc, c :: cs =>
    if 48 ≤ c.toNat ∧ c.toNat ≤ 57 then digitsValAux (10 * acc + (c.toNat - 48)) cs
    else none

/-- Value of a non-empty all-digit character list. -/
def digitsVal (cs : List Char) : Option Nat :=
  match cs with
  | [] => none
  | _ :: _ => digitsValAux 0 cs

/-- Python `int(s)` on a string: strip surrounding whitespace, optional
sign, decimal digits; anything else raises (here: `none`). -/
def pyInt (s : String) : Option Int :=
  let cs := ((s.data.dropWhile Char.isWhitespace).reverse.dropWhile Char.isWhitespace).reverse
  match cs with
  | [] => none
  | c :: rest =>
    if c = '-' then (digitsVal rest).map (fun n => -(n : Int))
    else if c = '+' then (digitsVal rest).map (fun n => (n : Int))
    else (digitsVal cs).map (fun n => (n : Int))

/-- Split on every occurrence of a separator character; always returns at
least one (possibly empty) part, like Python `s.split(sep)`. -/
def splitCharAux (sep : Char) : List Char → List (List Char)
  | [] => [[]]
  | c :: cs =>
    match splitCharAux sep cs with
    | [] => [[]]
    | p :: ps => if c = sep then [] :: p :: ps else (c :: p) :: ps

/-- Python `s.split(sep)` for a one-character separator (the code splits on
the one-character string `"-"`). -/
def pySplit (sep : Char) (s : String) : List String :=
  (splitCharAux sep s.data).map String.mk

/-- Fuel-driven core of literal string replacement; each step consumes at
least one character, so `fuel = length` suffices. -/
def replaceFuel (old new : List Char) : Nat → List Char → List Char
  | 0, l => l
  | _ + 1, [] => []
  | fuel + 1, c :: cs =>
    if old.isPrefixOf (c :: cs) then
      new ++ replaceFuel old new fuel (List.drop (old.length - 1) cs)
    else
      c :: replaceFuel old new fuel cs

/-- Python `s.replace(old, new)` (pandas `str.replace(..., regex=False)`):
literal, non-overlapping, left-to-right. Only called with a non-empty
`old`. -/
def pyReplace (s old new : String) : String :=
  String.mk (replaceFuel old.data new.data s.data.length s.data)

/-- Python `sep.join(parts)`. -/
def pyJoin (sep : String) (parts : List String) : String :=
  String.mk (((parts.map String.data).intersperse sep.data).flatten)

/-! ### Shared standings core

Both Python functions build, per finished match, a home-perspective row and
an away-perspective row, concatenate all home rows before all away rows,
group-sum by team, derive `GD` and `Pts`, sort by `["Pts","GD","GF"]`
descending (stable), and insert `Pos = 1..N`. -/

/-- One perspective row of the `home_stats` / `away_stats` frames:
01a_scrapping_leagues_fbref.py lines 69-91, 01ab_LeagueInit.py lines 64-86.
`own`/`opp` are the goals scored by / against the row's team. -/
structure StatRow where
  Team : String
  MP : Int
  W : Int
  D : Int
  L : Int
  GF : Int
  GA : Int
deriving DecidableEq, Repr

/-- A row of the output table, columns `Pos, Team, MP, W, D, L, GF, GA, GD,
Pts` in the source's output order. -/
structure TableRow where
  Pos : Int
  Team : String
  MP : Int
  W : Int
  D : Int
  L : Int
  GF : Int
  GA : Int
  GD : Int
  Pts : Int
deriving DecidableEq, Repr

/-- The perspective row for a team that scored `own` and conceded `opp`:
`W = (own > opp)`, `D = (own == opp)`, `L = (own < opp)`, `MP = 1`. -/
def perspectiveStat (team : String) (own opp : Int) : StatRow :=
  { Team := team
    MP := 1
    W := if opp < own then 1 else 0
    D := if own = opp then 1 else 0
    L := if own < opp then 1 else 0
    GF := own
    GA := opp }

/-- Insert a key into the sorted duplicate-free key list; building the list
this way models the sorted distinct keys that `groupby(..., sort=True)`
iterates over. -/
def insertKey (t : String) : List String → List String
  | [] => [t]
  | k :: ks =>
    if t = k then k :: ks
    else if pyStrLt t k then t :: k :: ks
    else k :: insertKey t ks

/-- The sorted distinct keys of a key list (`groupby` group keys, ascending
as with `sort=True`). -/
def sortKeys : List String → List String
  | [] => []
  | t :: ts => insertKey t (sortKeys ts)

/-- Sum of a field over a stat-row list. -/
def sumBy (f : StatRow → Int) (l : List StatRow) : Int := (l.map f).sum

/-- The group-sum row of one team, with the derived columns
`GD = GF - GA` and `Pts = W * 3 + D` (lines 90-91 / 95-96); `Pos` is a
placeholder until position assignment. -/
def groupRow (stats : List StatRow) (t : String) : TableRow :=
  let g := stats.filter (fun s => s.Team = t)
  let w := sumBy StatRow.W g
  let d := sumBy StatRow.D g
  let gf := sumBy StatRow.GF g
  let ga := sumBy StatRow.GA g
  { Pos := 0
    Team := t
    MP := sumBy StatRow.MP g
    W := w
    D := d
    L := sumBy StatRow.L g
    GF := gf
    GA := ga
    GD := gf - ga
    Pts := w * 3 + d }

/-- The comparison behind
`sort_values(by=["Pts","GD","GF"], ascending=[False,False,False])`:
`a` may stay before `b` iff `a`'s key triple is lexicographically at least
`b`'s. Ties on the full triple return `true`, so a stable sort keeps their
input order. -/
def rankGeB (a b : TableRow) : Bool :=
  if a.Pts = b.Pts then
    if a.GD = b.GD then
      if a.GF = b.GF then true
      else decide (b.GF < a.GF)
    else decide (b.GD < a.GD)
  else decide (b.Pts < a.Pts)

/-- `rankGeB` as a relation, for the stable sort. -/
def rankLE (a b : TableRow) : Prop := rankGeB a b = true

instance : DecidableRel rankLE := fun a b => inferInstanceAs (Decidable (rankGeB a b = true))

/-- Full equality of the three sort keys. -/
def keysEq (a b : TableRow) : Prop := a.Pts = b.Pts ∧ a.GD = b.GD ∧ a.GF = b.GF

/-- The order that the output actually satisfies: ranked at least as high,
and on a full key tie alphabetically earlier. -/
def rankThenTeam (a b : TableRow) : Prop :=
  rankGeB a b = true ∧ (keysEq a b → pyStrLt a.Team b.Team = true)

/-- Positions `n, n+1, ...` down a row list. -/
def assignPosFrom (n : Int) : List TableRow → List TableRow
  | [] => []
  | r :: rs => { r with Pos := n } :: assignPosFrom (n + 1) rs

/-- `reset_index` + `insert(0, "Pos", ...)`: position `i + 1` at 0-based
index `i`. -/
def assignPos (l : List TableRow) : List TableRow := assignPosFrom 1 l

/-- One match as (home team, away team, home goals, away goals). -/
abbrev Match := String × String × Int × Int

/-- The concatenated perspective frame `pd.concat([home, away])` of a match
list: all home rows, then all away rows. -/
def statsOfMatches (ms : List Match) : List StatRow :=
  ms.map (fun m => perspectiveStat m.1 m.2.2.1 m.2.2.2)
    ++ ms.map (fun m => perspectiveStat m.2.1 m.2.2.2 m.2.2.1)

/-- The `groupby("Team").sum()` result (plus the derived columns): one row
per distinct team, teams in ascending order. -/
def groupedOf (stats : List StatRow) : List TableRow :=
  (sortKeys (stats.map StatRow.Team)).map (groupRow stats)

/-- Group-sum, stable multi-key descending sort, position assignment. -/
def rankedTable (stats : List StatRow) : List TableRow :=
  assignPos (List.insertionSort rankLE (groupedOf stats))

/-- The shared core of both Python functions: group-sum the perspective
frame by team (keys ascending), derive `GD`/`Pts`, stable-sort by the three
keys descending, assign positions. -/
def tableFromMatches (ms : List Match) : List TableRow :=
  rankedTable (statsOfMatches ms)

/-! ### `compute_ranking` (01ab_LeagueInit.py, lines 23-95) -/

/-- One schedule row as seen through the columns `compute_ranking` resolves:
team names plus nullable goal counts (null = match not played). -/
structure ApiRow where
  home_team : String
  away_team : String
  home_goals : Option Int
  away_goals : Option Int
deriving DecidableEq, Repr

/-- A schedule for `compute_ranking`: the DataFrame's column-name list (used
by the resolution step) together with its rows, each row carrying the values
of the resolved team/goal columns. -/
structure ApiSchedule where
  cols : List String
  rows : List ApiRow
deriving DecidableEq, Repr

/-- `_find_column` (01ab_LeagueInit.py lines 23-28): build
`{col.lower(): col}` (later duplicates overwrite earlier ones, hence the
last matching column wins) and return the first candidate that is present,
case-insensitively. -/
def _find_column (cols : List String) (candidates : List String) : Option String :=
  candidates.findSome? (fun name => (cols.filter (fun c => pyLower c = pyLower name)).getLast?)

/-- The `required_pairs` scan (lines 32-49): first structured goal-column
pair whose two names both resolve. -/
def resolveGoalPair (cols : List String) : Option (String × String) :=
  [("home_goals", "away_goals"), ("home_score", "away_score"), ("goals_home", "goals_away")].findSome?
    (fun p =>
      match _find_column cols [p.1], _find_column cols [p.2] with
      | some h, some a => some (h, a)
      | _, _ => none)

/-- `compute_ranking` (lines 31-95). Missing team or goal columns yield the
empty table (the source returns an empty DataFrame with the output columns,
lines 51-57), as does an empty finished-match set (lines 60-62); otherwise
the shared core runs on the rows with both goals present. -/
def compute_ranking (schedule : ApiSchedule) : List TableRow :=
  match _find_column schedule.cols ["home_team", "team_home"],
        _find_column schedule.cols ["away_team", "team_away"],
        resolveGoalPair schedule.cols with
  | some _, some _, some _ =>
    if schedule.rows.filter (fun r => r.home_goals.isSome && r.away_goals.isSome) = [] then []
    else
      tableFromMatches ((schedule.rows.filter
          (fun r => r.home_goals.isSome && r.away_goals.isSome)).map (fun r =>
        (r.home_team, r.away_team, r.home_goals.getD 0, r.away_goals.getD 0)))
  | _, _, _ => []

/-- The resolution step of `compute_ranking` succeeds: both team columns and
one structured goal-column pair are found (lines 40-51). -/
def rankingResolves (schedule : ApiSchedule) : Prop :=
  (_find_column schedule.cols ["home_team", "team_home"]).isSome = true ∧
  (_find_column schedule.cols ["away_team", "team_away"]).isSome = true ∧
  (resolveGoalPair schedule.cols).isSome = true

instance (schedule : ApiSchedule) : Decidable (rankingResolves schedule) :=
  inferInstanceAs (Decidable (_ ∧ _ ∧ _))

/-! ### `compute_table_from_schedule` (01a_scrapping_leagues_fbref.py, lines 50-104) -/

/-- One schedule row as seen through the columns this function uses: the
nullable `score` string plus the two team names. -/
structure FbRow where
  score : Option String
  home_team : String
  away_team : String
deriving DecidableEq, Repr

/-- A schedule for `compute_table_from_schedule`: the DataFrame's
column-name list (checked against the required names) together with its
rows, each row carrying the values of the `score` / `home_team` /
`away_team` columns. -/
structure FbSchedule where
  cols : List String
  rows : List FbRow
deriving DecidableEq, Repr

/-- Outcome of the Python function: a returned table, an explicitly raised
`ValueError` with its message, or an exception escaping from `.astype(int)`
(a null or non-numeric score part), which the function does not catch. -/
inductive TableResult where
  | table (rows : List TableRow)
  | valueError (msg : String)
  | castException
deriving DecidableEq, Repr

/-- `sorted(required_cols)`: the required column names in ascending order,
as `sorted` presents them to the error message. -/
def requiredColsSorted : List String := ["away_team", "home_team", "score"]

/-- The literal first argument of the `str.replace` call on line 61: the
three characters U+00E2, U+20AC, U+201C (the UTF-8 bytes of an en-dash
decoded as cp1252), exactly as the source file spells it. -/
def mojibakeEnDash : String := "â€“"

/-- `required_cols - set(schedule.columns)` listed in `sorted` order (the
membership test is exact, case-sensitive string equality). -/
def fbMissing (schedule : FbSchedule) : List String :=
  requiredColsSorted.filter (fun c => decide (¬ c ∈ schedule.cols))

/-- `schedule.dropna(subset=["score"])`: rows with a non-null score, order
kept. -/
def fbValid (schedule : FbSchedule) : List FbRow :=
  schedule.rows.filter (fun r => r.score.isSome)

/-- Lines 61-62 for one row: `str.replace("â€“", "-", regex=False)` then
`str.split("-", expand=True)`. -/
def fbParts (r : FbRow) : List String :=
  pySplit '-' (pyReplace (r.score.getD "") mojibakeEnDash "-")

/-- `goals[i].astype(int)` for one row: the part at column `i` (null when
the row has fewer parts than the widest row) passed through `int()`;
`none` models the exception either raises. -/
def astypeIntAt (parts : List String) (i : Nat) : Option Int :=
  (parts.get? i).bind pyInt

/-- Collect a whole `.astype(int)` column; any failing element makes the
column conversion raise. -/
def allSome {α : Type} : List (Option α) → Option (List α)
  | [] => some []
  | none :: _ => none
  | some a :: l => (allSome l).map (a :: ·)

/-- `compute_table_from_schedule` (lines 50-104): required-column check
(lines 52-55), drop null scores (lines 57-59, empty table when nothing is
left), dash replacement and split with the width check (lines 61-64),
`astype(int)` casts (lines 66-67), then the shared core (lines 69-104). -/
def compute_table_from_schedule (schedule : FbSchedule) : TableResult :=
  if fbMissing schedule ≠ [] then
    .valueError ("Schedule is missing required columns: " ++ pyJoin ", " (fbMissing schedule))
  else if fbValid schedule = [] then .table []
  else if ((((fbValid schedule).map fbParts).map List.length).foldr Nat.max 0) < 2 then
    .valueError "Score column could not be split into home and away goals."
  else
    match allSome (((fbValid schedule).map fbParts).map (fun p => astypeIntAt p 0)),
          allSome (((fbValid schedule).map fbParts).map (fun p => astypeIntAt p 1)) with
    | some hs, some aws =>
      .table (tableFromMatches (((fbValid schedule).zip (hs.zip aws)).map (fun m =>
        (m.1.home_team, m.1.away_team, m.2.1, m.2.2))))
    | _, _ => .castException

/-! ### Order lemmas for the group-key comparison -/

theorem charListLt_irrefl (a : List Char) : charListLt a a = false := by
  induction a with
  | nil => rfl
  | cons x xs ih => simp [charListLt, ih]

theorem charListLt_cons_lt {u v : Char} (us vs : List Char) (h : u.toNat < v.toNat) :
    charListLt (u :: us) (v :: vs) = true := by
  simp [charListLt, h]

theorem charListLt_cons_gt {u v : Char} (us vs : List Char) (h : v.toNat < u.toNat) :
    charListLt (u :: us) (v :: vs) = false := by
  simp [charListLt, Nat.lt_asymm h, h]

theorem charListLt_cons_eq {u v : Char} (us vs : List Char) (h : u.toNat = v.toNat) :
    charListLt (u :: us) (v :: vs) = charListLt us vs := by
  simp [charListLt, h]

theorem charListLt_trans {a b c : List Char} (hab : charListLt a b = true)
    (hbc : charListLt b c = true) : charListLt a c = true := by
  induction a generalizing b c with
  | nil =>
    cases b with
    | nil => simp [charListLt] at hab
    | cons y ys =>
      cases c with
      | nil => simp [charListLt] at hbc
      | cons z zs => simp [charListLt]
  | cons x xs ih =>
    cases b with
    | nil => simp [charListLt] at hab
    | cons y ys =>
      cases c with
      | nil => simp [charListLt] at hbc
      | cons z zs =>
        rcases Nat.lt_trichotomy x.toNat y.toNat with h1 | h1 | h1
        · rcases Nat.lt_trichotomy y.toNat z.toNat with h2 | h2 | h2
          · rw [charListLt_cons_lt xs zs (Nat.lt_trans h1 h2)]
          · rw [charListLt_cons_lt xs zs (by omega)]
          · rw [charListLt_cons_gt ys zs h2] at hbc; exact absurd hbc (by simp)
        · rcases Nat.lt_trichotomy y.toNat z.toNat with h2 | h2 | h2
          · rw [charListLt_cons_lt xs zs (by omega)]
          · rw [charListLt_cons_eq xs ys h1] at hab
            rw [charListLt_cons_eq ys zs h2] at hbc
            rw [charListLt_cons_eq xs zs (by omega)]
            exact ih hab hbc
          · rw [charListLt_cons_gt ys zs h2] at hbc; exact absurd hbc (by simp)
        · rw [charListLt_cons_gt xs ys h1] at hab; exact absurd hab (by simp)

theorem charListLt_total {a b : List Char} (hab : charListLt a b = false)
    (hba : charListLt b a = false) : a = b := by
  induction a generalizing b with
  | nil =>
    cases b with
    | nil => rfl
    | cons y ys => simp [charListLt] at hab
  | cons x xs ih =>
    cases b with
    | nil => simp [charListLt] at hba
    | cons y ys =>
      rcases Nat.lt_trichotomy x.toNat y.toNat with h1 | h1 | h1
      · rw [charListLt_cons_lt xs ys h1] at hab; exact absurd hab (by simp)
      · have hx : x = y := Char.ext (UInt32.toNat.inj h1)
        rw [charListLt_cons_eq xs ys h1] at hab
        rw [charListLt_cons_eq ys xs h1.symm] at hba
        rw [hx, ih hab hba]
      · rw [charListLt_cons_lt ys xs h1] at hba; exact absurd hba (by simp)

theorem pyStrLt_irrefl (s : String) : pyStrLt s s = false := charListLt_irrefl s.data

theorem pyStrLt_trans {s t u : String} (h1 : pyStrLt s t = true) (h2 : pyStrLt t u = true) :
    pyStrLt s u = true := charListLt_trans h1 h2

theorem pyStrLt_total {s t : String} (h1 : pyStrLt s t = false) (h2 : pyStrLt t s = false) :
    s = t := by
  have h : s.data = t.data := charListLt_total h1 h2
  cases s; cases t; exact congrArg String.mk h

/-! ### Lemmas about the sorted distinct group keys -/

theorem mem_insertKey {x t : String} {ss : List String} :
    x ∈ insertKey t ss ↔ x = t ∨ x ∈ ss := by
  induction ss with
  | nil => simp [insertKey]
  | cons k ks ih =>
    simp only [insertKey]
    split_ifs with h1 h2
    · subst h1; simp only [List.mem_cons]; tauto
    · simp only [List.mem_cons]
    · simp only [List.mem_cons, ih]; tauto

theorem pairwise_insertKey {t : String} {ss : List String}
    (h : List.Pairwise (fun a b => pyStrLt a b = true) ss) :
    List.Pairwise (fun a b => pyStrLt a b = true) (insertKey t ss) := by
  induction ss with
  | nil => simp [insertKey]
  | cons k ks ih =>
    rw [List.pairwise_cons] at h
    obtain ⟨hk, hks⟩ := h
    simp only [insertKey]
    split_ifs with h1 h2
    · exact List.Pairwise.cons hk hks
    · refine List.Pairwise.cons ?_ (List.Pairwise.cons hk hks)
      intro x hx
      rcases List.mem_cons.mp hx with rfl | hx
      · exact h2
      · exact pyStrLt_trans h2 (hk x hx)
    · refine List.Pairwise.cons ?_ (ih hks)
      intro x hx
      rcases mem_insertKey.mp hx with rfl | hx
      · cases hkt : pyStrLt k x with
        | true => rfl
        | false => exact absurd (pyStrLt_total (by simpa using h2) hkt) h1
      · exact hk x hx

theorem mem_sortKeys {x : String} {ts : List String} : x ∈ sortKeys ts ↔ x ∈ ts := by
  induction ts with
  | nil => simp [sortKeys]
  | cons t ts ih => simp [sortKeys, mem_insertKey, ih]

theorem pairwise_sortKeys (ts : List String) :
    List.Pairwise (fun a b => pyStrLt a b = true) (sortKeys ts) := by
  induction ts with
  | nil => simp [sortKeys]
  | cons t ts ih => exact pairwise_insertKey ih

theorem nodup_sortKeys (ts : List String) : (sortKeys ts).Nodup := by
  refine (pairwise_sortKeys ts).imp ?_
  intro a b hab h
  subst h
  simp [pyStrLt_irrefl] at hab

theorem length_sortKeys (ts : List String) : (sortKeys ts).length = ts.dedup.length := by
  have h1 : (sortKeys ts).toFinset = ts.dedup.toFinset := by
    ext x
    simp [List.mem_toFinset, mem_sortKeys, List.mem_dedup]
  calc (sortKeys ts).length = (sortKeys ts).toFinset.card :=
        (List.toFinset_card_of_nodup (nodup_sortKeys ts)).symm
    _ = ts.dedup.toFinset.card := by rw [h1]
    _ = ts.dedup.length := List.toFinset_card_of_nodup (List.nodup_dedup ts)

/-! ### Rank-key comparison lemmas -/

theorem keysEq_symm {a b : TableRow} (h : keysEq a b) : keysEq b a :=
  ⟨h.1.symm, h.2.1.symm, h.2.2.symm⟩

theorem rankGeB_of_keysEq {a b : TableRow} (h : keysEq a b) : rankGeB a b = true := by
  obtain ⟨h1, h2, h3⟩ := h
  simp [rankGeB, h1, h2, h3]

theorem rankGeB_total {a b : TableRow} (h : rankGeB a b = false) : rankGeB b a = true := by
  simp only [rankGeB] at h ⊢
  split_ifs at h ⊢ <;> simp_all <;> omega

theorem not_keysEq_of_rankGeB_false {a b : TableRow} (h : rankGeB a b = false) :
    ¬ keysEq a b := by
  intro hk
  rw [rankGeB_of_keysEq hk] at h
  simp at h

theorem rankGeB_trans {a b c : TableRow} (hab : rankGeB a b = true)
    (hbc : rankGeB b c = true) : rankGeB a c = true := by
  simp only [rankGeB] at hab hbc ⊢
  split_ifs at hab hbc ⊢ <;> simp_all <;> omega

/-- `rankGeB` spelled out: the lexicographic "ranks at least as high"
disjunction. -/
theorem rankGeB_cases {a b : TableRow} (h : rankGeB a b = true) :
    b.Pts < a.Pts ∨ (a.Pts = b.Pts ∧ b.GD < a.GD) ∨
      (a.Pts = b.Pts ∧ a.GD = b.GD ∧ b.GF < a.GF) ∨
      (a.Pts = b.Pts ∧ a.GD = b.GD ∧ a.GF = b.GF) := by
  simp only [rankGeB] at h
  split_ifs at h <;> simp_all

/-! ### Stable sort of the alphabetically grouped rows -/

theorem pairwise_rankThenTeam_orderedInsert {a : TableRow} {m : List TableRow}
    (hm : List.Pairwise rankThenTeam m)
    (ha : ∀ b ∈ m, pyStrLt a.Team b.Team = true) :
    List.Pairwise rankThenTeam (List.orderedInsert rankLE a m) := by
  induction m with
  | nil => simp [List.orderedInsert]
  | cons b m ih =>
    rw [List.pairwise_cons] at hm
    obtain ⟨hb, hm'⟩ := hm
    simp only [List.orderedInsert]
    split_ifs with hr
    · refine List.Pairwise.cons ?_ (List.Pairwise.cons hb hm')
      intro x hx
      rcases List.mem_cons.mp hx with rfl | hx
      · exact ⟨hr, fun _ => ha x (List.mem_cons_self _ _)⟩
      · exact ⟨rankGeB_trans hr (hb x hx).1, fun _ => ha x (List.mem_cons_of_mem _ hx)⟩
    · have hr' : rankGeB a b = false := by
        simpa [rankLE] using hr
      refine List.Pairwise.cons ?_ (ih hm' (fun x hx => ha x (List.mem_cons_of_mem _ hx)))
      intro x hx
      rcases (List.mem_orderedInsert rankLE).mp hx with rfl | hx
      · exact ⟨rankGeB_total hr',
          fun hk => absurd (keysEq_symm hk) (not_keysEq_of_rankGeB_false hr')⟩
      · exact hb x hx

theorem pairwise_rankThenTeam_insertionSort {l : List TableRow}
    (hl : List.Pairwise (fun a b => pyStrLt a.Team b.Team = true) l) :
    List.Pairwise rankThenTeam (List.insertionSort rankLE l) := by
  induction l with
  | nil => simp [List.insertionSort]
  | cons a l ih =>
    rw [List.pairwise_cons] at hl
    obtain ⟨ha, hl'⟩ := hl
    simp only [List.insertionSort]
    exact pairwise_rankThenTeam_orderedInsert (ih hl')
      (fun x hx => ha x ((List.perm_insertionSort rankLE l).mem_iff.mp hx))

/-! ### Position assignment lemmas -/

theorem length_assignPosFrom (n : Int) (l : List TableRow) :
    (assignPosFrom n l).length = l.length := by
  induction l generalizing n with
  | nil => rfl
  | cons r rs ih => simp [assignPosFrom, ih]

theorem mem_assignPosFrom {x : TableRow} {n : Int} {l : List TableRow}
    (h : x ∈ assignPosFrom n l) : ∃ r ∈ l, x = { r with Pos := x.Pos } := by
  induction l generalizing n with
  | nil => simp [assignPosFrom] at h
  | cons r rs ih =>
    rcases List.mem_cons.mp h with rfl | h
    · exact ⟨r, List.mem_cons_self _ _, rfl⟩
    · obtain ⟨r', hr', hx⟩ := ih h
      exact ⟨r', List.mem_cons_of_mem _ hr', hx⟩

theorem get_assignPosFrom (n : Int) (l : List TableRow) (i : Nat)
    (h : i < (assignPosFrom n l).length) :
    ((assignPosFrom n l).get ⟨i, h⟩).Pos = n + i := by
  induction l generalizing n i with
  | nil => simp [assignPosFrom] at h
  | cons r rs ih =>
    cases i with
    | zero => simp [assignPosFrom]
    | succ j =>
      have hj : j < (assignPosFrom (n + 1) rs).length := by
        simpa [assignPosFrom] using h
      have := ih (n + 1) j hj
      simp only [assignPosFrom, List.get] at this ⊢
      rw [this]
      push_cast
      ring

theorem pairwise_assignPosFrom {R : TableRow → TableRow → Prop}
    (hR : ∀ (a b : TableRow) (p q : Int), R a b → R { a with Pos := p } { b with Pos := q })
    {l : List TableRow} {n : Int} (h : List.Pairwise R l) :
    List.Pairwise R (assignPosFrom n l) := by
  induction l generalizing n with
  | nil => exact List.Pairwise.nil
  | cons r rs ih =>
    rw [List.pairwise_cons] at h
    obtain ⟨hr, hrs⟩ := h
    refine List.Pairwise.cons ?_ (ih hrs)
    intro x hx
    obtain ⟨r', hr', hx'⟩ := mem_assignPosFrom hx
    rw [hx']
    exact hR _ _ _ _ (hr r' hr')

theorem assignPosFrom_map_field {β : Type} (f : TableRow → β)
    (hf : ∀ (r : TableRow) (p : Int), f { r with Pos := p } = f r) (n : Int)
    (l : List TableRow) : (assignPosFrom n l).map f = l.map f := by
  induction l generalizing n with
  | nil => rfl
  | cons r rs ih => simp [assignPosFrom, ih, hf]

/-! ### Summation lemmas for the group-by aggregation -/

theorem sumBy_nil (f : StatRow → Int) : sumBy f [] = 0 := rfl

theorem sumBy_cons (f : StatRow → Int) (s : StatRow) (l : List StatRow) :
    sumBy f (s :: l) = f s + sumBy f l := by simp [sumBy]

theorem sumBy_append (f : StatRow → Int) (l m : List StatRow) :
    sumBy f (l ++ m) = sumBy f l + sumBy f m := by simp [sumBy]

/-- Splitting a sum along a Boolean predicate. -/
theorem sumBy_filter_split (f : StatRow → Int) (p : StatRow → Bool) (l : List StatRow) :
    sumBy f l = sumBy f (l.filter p) + sumBy f (l.filter (fun s => !(p s))) := by
  induction l with
  | nil => simp [sumBy]
  | cons s l ih =>
    by_cases hp : p s = true <;>
      simp [List.filter_cons, hp, sumBy_cons, ih] <;> omega

/-- Summing group sums over a duplicate-free, covering key list gives the
total sum: `groupby(...).sum()` conserves column totals. -/
theorem sum_over_keys (keys : List String) (l : List StatRow) (f : StatRow → Int)
    (hnd : keys.Nodup) (hmem : ∀ s ∈ l, s.Team ∈ keys) :
    ((keys.map (fun t => sumBy f (l.filter (fun s => s.Team = t)))).sum) = sumBy f l := by
  induction keys generalizing l with
  | nil =>
    have : l = [] := List.eq_nil_iff_forall_not_mem.mpr (fun s hs => by
      simpa using hmem s hs)
    simp [this, sumBy]
  | cons t ks ih =>
    rw [List.nodup_cons] at hnd
    obtain ⟨hts, hks⟩ := hnd
    have hfilter : ∀ k ∈ ks,
        (l.filter (fun s => !(decide (s.Team = t)))).filter (fun s => s.Team = k)
          = l.filter (fun s => s.Team = k) := by
      intro k hk
      rw [List.filter_filter]
      apply List.filter_congr
      intro s _
      by_cases hsk : s.Team = k
      · have hst : ¬ s.Team = t := by
          intro h
          have htk : t = k := by rw [← h, hsk]
          exact hts (htk ▸ hk)
        simp only [hsk, hst]
        simp
        intro h
        exact hts (h ▸ hk)
      · simp [hsk]
    have hmem2 : ∀ s ∈ l.filter (fun s => !(decide (s.Team = t))), s.Team ∈ ks := by
      intro s hs
      rw [List.mem_filter] at hs
      obtain ⟨hsl, hst⟩ := hs
      rcases List.mem_cons.mp (hmem s hsl) with h | h
      · simp [h] at hst
      · exact h
    have hrw : (ks.map (fun k => sumBy f (l.filter (fun s => s.Team = k)))).sum
        = sumBy f (l.filter (fun s => !(decide (s.Team = t)))) := by
      rw [← ih (l.filter (fun s => !(decide (s.Team = t)))) hks hmem2]
      congr 1
      apply List.map_congr_left
      intro k hk
      rw [hfilter k hk]
    rw [List.map_cons, List.sum_cons, hrw]
    exact (sumBy_filter_split f _ l).symm

/-! ### Facts about the group rows -/

theorem groupRow_mp (stats : List StatRow) (t : String)
    (hst : ∀ s ∈ stats, s.W + s.D + s.L = s.MP) :
    (groupRow stats t).MP = (groupRow stats t).W + (groupRow stats t).D + (groupRow stats t).L := by
  have key : ∀ l : List StatRow, (∀ s ∈ l, s.W + s.D + s.L = s.MP) →
      sumBy StatRow.W l + sumBy StatRow.D l + sumBy StatRow.L l = sumBy StatRow.MP l := by
    intro l
    induction l with
    | nil => intro _; simp [sumBy]
    | cons s l ih =>
      intro hl
      have hs := hl s (List.mem_cons_self _ _)
      have ihl := ih (fun x hx => hl x (List.mem_cons_of_mem _ hx))
      simp only [sumBy_cons]
      omega
  have hmem : ∀ s ∈ stats.filter (fun s => s.Team = t), s.W + s.D + s.L = s.MP :=
    fun s hs => hst s (List.mem_filter.mp hs).1
  simp only [groupRow]
  exact (key _ hmem).symm

/-! ### The ranked table: order, positions, length, conservation -/

theorem pairwise_rankedTable (stats : List StatRow) :
    List.Pairwise rankThenTeam (rankedTable stats) := by
  unfold rankedTable assignPos
  apply pairwise_assignPosFrom
  · intro a b p q hab
    exact hab
  · apply pairwise_rankThenTeam_insertionSort
    unfold groupedOf
    rw [List.pairwise_map]
    exact (pairwise_sortKeys _).imp (fun h => h)

theorem length_rankedTable (stats : List StatRow) :
    (rankedTable stats).length = (stats.map StatRow.Team).dedup.length := by
  unfold rankedTable assignPos
  rw [length_assignPosFrom, (List.perm_insertionSort rankLE _).length_eq]
  unfold groupedOf
  rw [List.length_map, length_sortKeys]

theorem pos_rankedTable (stats : List StatRow) (i : Nat)
    (h : i < (rankedTable stats).length) :
    ((rankedTable stats).get ⟨i, h⟩).Pos = (i : Int) + 1 := by
  unfold rankedTable assignPos at h ⊢
  rw [get_assignPosFrom]
  omega

theorem mp_rankedTable (stats : List StatRow)
    (hst : ∀ s ∈ stats, s.W + s.D + s.L = s.MP) :
    ∀ x ∈ rankedTable stats, x.MP = x.W + x.D + x.L := by
  intro x hx
  unfold rankedTable assignPos at hx
  obtain ⟨r, hr, hxr⟩ := mem_assignPosFrom hx
  have hr' : r ∈ groupedOf stats := (List.perm_insertionSort rankLE _).mem_iff.mp hr
  unfold groupedOf at hr'
  obtain ⟨t, _, rfl⟩ := List.mem_map.mp hr'
  rw [hxr]
  exact groupRow_mp stats t hst

theorem groupedOf_sum (stats : List StatRow) (f : StatRow → Int) (g : TableRow → Int)
    (hg : ∀ t, g (groupRow stats t) = sumBy f (stats.filter (fun s => s.Team = t))) :
    ((groupedOf stats).map g).sum = sumBy f stats := by
  unfold groupedOf
  rw [List.map_map]
  have hcongr : (sortKeys (stats.map StatRow.Team)).map (g ∘ groupRow stats)
      = (sortKeys (stats.map StatRow.Team)).map
          (fun t => sumBy f (stats.filter (fun s => s.Team = t))) := by
    apply List.map_congr_left
    intro t _
    exact hg t
  rw [hcongr]
  exact sum_over_keys _ stats f (nodup_sortKeys _)
    (fun s hs => mem_sortKeys.mpr (List.mem_map_of_mem _ hs))

theorem goals_rankedTable (stats : List StatRow)
    (hbal : sumBy StatRow.GF stats = sumBy StatRow.GA stats) :
    ((rankedTable stats).map TableRow.GF).sum = ((rankedTable stats).map TableRow.GA).sum := by
  unfold rankedTable assignPos
  rw [assignPosFrom_map_field TableRow.GF (fun r p => rfl),
      assignPosFrom_map_field TableRow.GA (fun r p => rfl)]
  have hperm := List.perm_insertionSort rankLE (groupedOf stats)
  rw [(hperm.map TableRow.GF).sum_eq, (hperm.map TableRow.GA).sum_eq]
  rw [groupedOf_sum stats StatRow.GF TableRow.GF (fun t => rfl),
      groupedOf_sum stats StatRow.GA TableRow.GA (fun t => rfl)]
  exact hbal

/-! ### The perspective frame of a match list -/

theorem statsOfMatches_wdl (ms : List Match) :
    ∀ s ∈ statsOfMatches ms, s.W + s.D + s.L = s.MP := by
  intro s hs
  unfold statsOfMatches at hs
  rcases List.mem_append.mp hs with h | h <;>
    obtain ⟨m, _, rfl⟩ := List.mem_map.mp h <;>
    · simp only [perspectiveStat]
      split_ifs <;> omega

theorem statsOfMatches_balance (ms : List Match) :
    sumBy StatRow.GF (statsOfMatches ms) = sumBy StatRow.GA (statsOfMatches ms) := by
  unfold statsOfMatches
  rw [sumBy_append, sumBy_append]
  have h1 : sumBy StatRow.GF (ms.map (fun m => perspectiveStat m.1 m.2.2.1 m.2.2.2))
      = (ms.map (fun m => m.2.2.1)).sum := by
    simp [sumBy, List.map_map, Function.comp_def, perspectiveStat]
  have h2 : sumBy StatRow.GA (ms.map (fun m => perspectiveStat m.1 m.2.2.1 m.2.2.2))
      = (ms.map (fun m => m.2.2.2)).sum := by
    simp [sumBy, List.map_map, Function.comp_def, perspectiveStat]
  have h3 : sumBy StatRow.GF (ms.map (fun m => perspectiveStat m.2.1 m.2.2.2 m.2.2.1))
      = (ms.map (fun m => m.2.2.2)).sum := by
    simp [sumBy, List.map_map, Function.comp_def, perspectiveStat]
  have h4 : sumBy StatRow.GA (ms.map (fun m => perspectiveStat m.2.1 m.2.2.2 m.2.2.1))
      = (ms.map (fun m => m.2.2.1)).sum := by
    simp [sumBy, List.map_map, Function.comp_def, perspectiveStat]
  rw [h1, h2, h3, h4]
  omega

theorem statsOfMatches_map_team (ms : List Match) :
    (statsOfMatches ms).map StatRow.Team
      = ms.map (fun m => m.1) ++ ms.map (fun m => m.2.1) := by
  simp [statsOfMatches, List.map_map, Function.comp_def, perspectiveStat]

/-! ### Shape of the two functions' outputs -/

theorem compute_ranking_shape (schedule : ApiSchedule) :
    compute_ranking schedule = [] ∨
      ∃ ms : List Match, compute_ranking schedule = tableFromMatches ms := by
  unfold compute_ranking
  split
  · split_ifs
    · left; rfl
    · right; exact ⟨_, rfl⟩
  · left; rfl

theorem compute_table_shape {schedule : FbSchedule} {t : List TableRow}
    (h : compute_table_from_schedule schedule = .table t) :
    t = [] ∨ ∃ ms : List Match, t = tableFromMatches ms := by
  unfold compute_table_from_schedule at h
  split_ifs at h
  · injection h with h'
    exact Or.inl h'.symm
  · split at h
    · injection h with h'
      exact Or.inr ⟨_, h'.symm⟩
    · exact absurd h (by simp)

/-! ### Claim theorems -/

/-- C1: for the schedule consisting exactly of the finished matches
A 2-1 B, B 0-0 C, A 1-3 C, the engine produces a three-row table ranked
C first (Pts=4, GD=+2, Pos=1), A second (Pts=3, GD=-1, Pos=2), B third
(Pts=1, GD=-1, Pos=3), with per-team MP/W/D/L/GF/GA aggregated from both
home and away perspectives. -/
theorem scenario_ABC_standings :
    compute_table_from_schedule ⟨["score", "home_team", "away_team"],
        [⟨some "2-1", "A", "B"⟩, ⟨some "0-0", "B", "C"⟩, ⟨some "1-3", "A", "C"⟩]⟩
      = .table [⟨1, "C", 2, 1, 1, 0, 3, 1, 2, 4⟩,
                ⟨2, "A", 2, 1, 0, 1, 3, 4, -1, 3⟩,
                ⟨3, "B", 2, 0, 1, 1, 1, 2, -1, 1⟩] := by decide

/-- C2: on every schedule whose columns resolve, the output rows are sorted
by points, then goal difference, then goals-for, all descending; the `Pos`
field of the row at 0-based index `i` is `i + 1`; and the number of rows is
the number of distinct teams appearing in at least one finished match, so
the positions are exactly `1..N`. -/
theorem compute_ranking_sorted_and_positions (schedule : ApiSchedule)
    (hres : rankingResolves schedule) :
    List.Pairwise (fun a b =>
        b.Pts < a.Pts ∨ (a.Pts = b.Pts ∧ b.GD < a.GD) ∨
          (a.Pts = b.Pts ∧ a.GD = b.GD ∧ b.GF < a.GF) ∨
          (a.Pts = b.Pts ∧ a.GD = b.GD ∧ a.GF = b.GF))
      (compute_ranking schedule) ∧
    (∀ (i : Nat) (hi : i < (compute_ranking schedule).length),
        ((compute_ranking schedule).get ⟨i, hi⟩).Pos = (i : Int) + 1) ∧
    (compute_ranking schedule).length =
      (((schedule.rows.filter (fun r => r.home_goals.isSome && r.away_goals.isSome)).map
          ApiRow.home_team)
        ++ ((schedule.rows.filter (fun r => r.home_goals.isSome && r.away_goals.isSome)).map
          ApiRow.away_team)).dedup.length := by
  obtain ⟨h1, h2, h3⟩ := hres
  rw [Option.isSome_iff_exists] at h1 h2 h3
  obtain ⟨vh, eh⟩ := h1
  obtain ⟨va, ea⟩ := h2
  obtain ⟨vg, eg⟩ := h3
  have hcr : compute_ranking schedule =
      (if schedule.rows.filter (fun r => r.home_goals.isSome && r.away_goals.isSome) = []
        then []
        else tableFromMatches ((schedule.rows.filter
            (fun r => r.home_goals.isSome && r.away_goals.isSome)).map (fun r =>
          (r.home_team, r.away_team, r.home_goals.getD 0, r.away_goals.getD 0)))) := by
    unfold compute_ranking
    rw [eh, ea, eg]
  by_cases hfin :
      schedule.rows.filter (fun r => r.home_goals.isSome && r.away_goals.isSome) = []
  · rw [hcr, if_pos hfin]
    refine ⟨List.Pairwise.nil, ?_, ?_⟩
    · intro i hi
      simp at hi
    · rw [hfin]
      rfl
  · rw [hcr, if_neg hfin]
    unfold tableFromMatches
    refine ⟨?_, ?_, ?_⟩
    · exact (pairwise_rankedTable _).imp (fun hab => rankGeB_cases hab.1)
    · intro i hi
      exact pos_rankedTable _ i hi
    · rw [length_rankedTable, statsOfMatches_map_team]
      have e1 : ((schedule.rows.filter
            (fun r => r.home_goals.isSome && r.away_goals.isSome)).map (fun r =>
          (r.home_team, r.away_team, r.home_goals.getD 0, r.away_goals.getD 0))).map
            (fun m => m.1)
          = (schedule.rows.filter
              (fun r => r.home_goals.isSome && r.away_goals.isSome)).map ApiRow.home_team := by
        simp [List.map_map, Function.comp_def]
      have e2 : ((schedule.rows.filter
            (fun r => r.home_goals.isSome && r.away_goals.isSome)).map (fun r =>
          (r.home_team, r.away_team, r.home_goals.getD 0, r.away_goals.getD 0))).map
            (fun m => m.2.1)
          = (schedule.rows.filter
              (fun r => r.home_goals.isSome && r.away_goals.isSome)).map ApiRow.away_team := by
        simp [List.map_map, Function.comp_def]
      rw [e1, e2]

/-- C2 witness: the general theorem applied to a concrete one-match
schedule. -/
theorem compute_ranking_sorted_and_positions_witness :
    List.Pairwise (fun a b =>
        b.Pts < a.Pts ∨ (a.Pts = b.Pts ∧ b.GD < a.GD) ∨
          (a.Pts = b.Pts ∧ a.GD = b.GD ∧ b.GF < a.GF) ∨
          (a.Pts = b.Pts ∧ a.GD = b.GD ∧ a.GF = b.GF))
      (compute_ranking ⟨["home_team", "away_team", "home_goals", "away_goals"],
        [⟨"A", "B", some 2, some 1⟩]⟩) ∧
    (∀ (i : Nat) (hi : i < (compute_ranking ⟨["home_team", "away_team", "home_goals",
          "away_goals"], [⟨"A", "B", some 2, some 1⟩]⟩).length),
        ((compute_ranking ⟨["home_team", "away_team", "home_goals", "away_goals"],
          [⟨"A", "B", some 2, some 1⟩]⟩).get ⟨i, hi⟩).Pos = (i : Int) + 1) ∧
    (compute_ranking ⟨["home_team", "away_team", "home_goals", "away_goals"],
        [⟨"A", "B", some 2, some 1⟩]⟩).length =
      ((([⟨"A", "B", some 2, some 1⟩] : List ApiRow).filter
          (fun r => r.home_goals.isSome && r.away_goals.isSome)).map ApiRow.home_team
        ++ (([⟨"A", "B", some 2, some 1⟩] : List ApiRow).filter
          (fun r => r.home_goals.isSome && r.away_goals.isSome)).map
            ApiRow.away_team).dedup.length :=
  compute_ranking_sorted_and_positions
    ⟨["home_team", "away_team", "home_goals", "away_goals"], [⟨"A", "B", some 2, some 1⟩]⟩
    (by decide)

/-- C3 counterexample: Beta and Alpha are fully tied (Pts=3, GD=1, GF=1)
and Beta appears first in the input, yet Alpha is ranked ahead of Beta, so
tied teams do not retain first-appearance input order. -/
theorem tie_not_first_appearance_order :
    compute_table_from_schedule ⟨["score", "home_team", "away_team"],
        [⟨some "1-0", "Beta", "Zed"⟩, ⟨some "1-0", "Alpha", "Yed"⟩]⟩
      = .table [⟨1, "Alpha", 1, 1, 0, 0, 1, 0, 1, 3⟩,
                ⟨2, "Beta", 1, 1, 0, 0, 1, 0, 1, 3⟩,
                ⟨3, "Yed", 1, 0, 0, 1, 0, 1, -1, 0⟩,
                ⟨4, "Zed", 1, 0, 0, 1, 0, 1, -1, 0⟩] := by decide

/-- C3 amended: on every schedule for which the function returns a table,
teams tied on all three sort keys appear in ascending code-point
(alphabetical) order of team name — the deterministic order induced by the
alphabetically sorted group keys and the stable multi-key sort — not in
first-appearance input order. -/
theorem compute_table_tie_break_alphabetical (schedule : FbSchedule) (t : List TableRow)
    (h : compute_table_from_schedule schedule = .table t) :
    List.Pairwise (fun a b => a.Pts = b.Pts → a.GD = b.GD → a.GF = b.GF →
      pyStrLt a.Team b.Team = true) t := by
  rcases compute_table_shape h with rfl | ⟨ms, rfl⟩
  · exact List.Pairwise.nil
  · unfold tableFromMatches
    exact (pairwise_rankedTable _).imp (fun hab h1 h2 h3 => hab.2 ⟨h1, h2, h3⟩)

/-- C3 witness: the amended theorem applied to the tied Beta/Alpha
schedule. -/
theorem compute_table_tie_break_alphabetical_witness :
    List.Pairwise (fun a b => a.Pts = b.Pts → a.GD = b.GD → a.GF = b.GF →
      pyStrLt a.Team b.Team = true)
      [(⟨1, "Alpha", 1, 1, 0, 0, 1, 0, 1, 3⟩ : TableRow),
       ⟨2, "Beta", 1, 1, 0, 0, 1, 0, 1, 3⟩,
       ⟨3, "Yed", 1, 0, 0, 1, 0, 1, -1, 0⟩,
       ⟨4, "Zed", 1, 0, 0, 1, 0, 1, -1, 0⟩] :=
  compute_table_tie_break_alphabetical
    ⟨["score", "home_team", "away_team"],
      [⟨some "1-0", "Beta", "Zed"⟩, ⟨some "1-0", "Alpha", "Yed"⟩]⟩
    [⟨1, "Alpha", 1, 1, 0, 0, 1, 0, 1, 3⟩,
     ⟨2, "Beta", 1, 1, 0, 0, 1, 0, 1, 3⟩,
     ⟨3, "Yed", 1, 0, 0, 1, 0, 1, -1, 0⟩,
     ⟨4, "Zed", 1, 0, 0, 1, 0, 1, -1, 0⟩] (by decide)

/-- C4: a score string containing a real en-dash (U+2013) is not
normalized — the `str.replace` call targets the three-character mojibake
sequence, not the en-dash — so a schedule whose only score is `2–1` raises
the split `ValueError` instead of parsing to home 2, away 1. -/
theorem en_dash_score_not_parsed :
    compute_table_from_schedule ⟨["score", "home_team", "away_team"],
        [⟨some "2–1", "A", "B"⟩]⟩
      = .valueError "Score column could not be split into home and away goals." := by decide

/-- C5 counterexample: the malformed score `2-1-x` does not produce a
resolution failure — the row parses silently as 2-1 from the first two
dash-separated parts and a full table is returned. -/
theorem malformed_score_parses_silently :
    compute_table_from_schedule ⟨["score", "home_team", "away_team"],
        [⟨some "2-1-x", "A", "B"⟩]⟩
      = .table [⟨1, "A", 1, 1, 0, 0, 2, 1, 1, 3⟩,
                ⟨2, "B", 1, 0, 0, 1, 1, 2, -1, 0⟩] := by decide

/-- C5 amended: rows with a null score are excluded from the finished-match
set; a schedule whose every score lacks an ASCII hyphen (such as a lone
`2`) raises the explicit split `ValueError`; but `2-1-x` parses silently as
2-1, and a hyphen-free score mixed with well-formed rows escapes as a cast
exception rather than an explicit resolution failure. -/
theorem score_resolution_amended :
    (∀ (cols : List String) (ht aw : String) (rows : List FbRow),
        compute_table_from_schedule ⟨cols, ⟨none, ht, aw⟩ :: rows⟩
          = compute_table_from_schedule ⟨cols, rows⟩) ∧
    compute_table_from_schedule ⟨["score", "home_team", "away_team"],
        [⟨some "2", "A", "B"⟩]⟩
      = .valueError "Score column could not be split into home and away goals." ∧
    compute_table_from_schedule ⟨["score", "home_team", "away_team"],
        [⟨some "2", "A", "B"⟩, ⟨some "2-1", "C", "D"⟩]⟩ = .castException := by
  refine ⟨?_, by decide, by decide⟩
  intro cols ht aw rows
  have hm : fbMissing ⟨cols, ⟨none, ht, aw⟩ :: rows⟩ = fbMissing ⟨cols, rows⟩ := rfl
  have hv : fbValid ⟨cols, ⟨none, ht, aw⟩ :: rows⟩ = fbValid ⟨cols, rows⟩ := by
    simp [fbValid]
  unfold compute_table_from_schedule
  rw [hm, hv]

/-- C6: in every output row of the standings engine, matches played equals
wins plus draws plus losses. -/
theorem compute_ranking_mp_consistent (schedule : ApiSchedule) :
    ∀ x ∈ compute_ranking schedule, x.MP = x.W + x.D + x.L := by
  rcases compute_ranking_shape schedule with h | ⟨ms, h⟩ <;> rw [h]
  · intro x hx
    simp at hx
  · unfold tableFromMatches
    exact mp_rankedTable _ (statsOfMatches_wdl ms)

/-- C6 witness: the per-row invariant at a concrete schedule and row. -/
theorem compute_ranking_mp_consistent_witness :
    (⟨1, "A", 1, 1, 0, 0, 2, 1, 1, 3⟩ : TableRow).MP
      = (⟨1, "A", 1, 1, 0, 0, 2, 1, 1, 3⟩ : TableRow).W
        + (⟨1, "A", 1, 1, 0, 0, 2, 1, 1, 3⟩ : TableRow).D
        + (⟨1, "A", 1, 1, 0, 0, 2, 1, 1, 3⟩ : TableRow).L :=
  compute_ranking_mp_consistent
    ⟨["home_team", "away_team", "home_goals", "away_goals"], [⟨"A", "B", some 2, some 1⟩]⟩
    ⟨1, "A", 1, 1, 0, 0, 2, 1, 1, 3⟩ (by decide)

/-- C7: the sum of goals-for over all output rows equals the sum of
goals-against, since each finished match contributes its two goal counts to
both teams' perspectives. -/
theorem compute_ranking_goal_conservation (schedule : ApiSchedule) :
    ((compute_ranking schedule).map TableRow.GF).sum
      = ((compute_ranking schedule).map TableRow.GA).sum := by
  rcases compute_ranking_shape schedule with h | ⟨ms, h⟩ <;> rw [h]
  · rfl
  · unfold tableFromMatches
    exact goals_rankedTable _ (statsOfMatches_balance ms)

/-- C8: a schedule with no finished match — every row has a null goal field
(`compute_ranking`), or a null score (`compute_table_from_schedule` with the
required columns present) — yields an empty standings table and no error. -/
theorem empty_finished_set_empty_table :
    (∀ schedule : ApiSchedule,
        (∀ r ∈ schedule.rows, r.home_goals = none ∨ r.away_goals = none) →
        compute_ranking schedule = []) ∧
    (∀ schedule : FbSchedule, fbMissing schedule = [] →
        (∀ r ∈ schedule.rows, r.score = none) →
        compute_table_from_schedule schedule = .table []) := by
  constructor
  · intro schedule hnull
    have hfin : schedule.rows.filter
        (fun r => r.home_goals.isSome && r.away_goals.isSome) = [] := by
      rw [List.filter_eq_nil_iff]
      intro r hr
      rcases hnull r hr with h | h <;> simp [h]
    unfold compute_ranking
    split
    · rw [if_pos hfin]
    · rfl
  · intro schedule hcols hnull
    have hv : fbValid schedule = [] := by
      rw [fbValid, List.filter_eq_nil_iff]
      intro r hr
      simp [hnull r hr]
    unfold compute_table_from_schedule
    rw [if_neg (by simp [hcols]), if_pos hv]

/-- C8 witness: both functions applied to one-row unfinished schedules. -/
theorem empty_finished_set_empty_table_witness :
    compute_ranking ⟨["home_team", "away_team", "home_goals", "away_goals"],
        [⟨"A", "B", none, none⟩]⟩ = [] ∧
    compute_table_from_schedule ⟨["score", "home_team", "away_team"],
        [⟨none, "A", "B"⟩]⟩ = .table [] :=
  ⟨empty_finished_set_empty_table.1
      ⟨["home_team", "away_team", "home_goals", "away_goals"], [⟨"A", "B", none, none⟩]⟩
      (by decide),
   empty_finished_set_empty_table.2
      ⟨["score", "home_team", "away_team"], [⟨none, "A", "B"⟩]⟩ (by decide) (by decide)⟩

/-- C9: in `compute_ranking`, teams tied on all three sort keys appear in
ascending code-point (alphabetical) order of team name: the group keys are
emitted alphabetically and the multi-key sort is stable, making
alphabetical order the effective tertiary tie-break. -/
theorem compute_ranking_tie_break_alphabetical (schedule : ApiSchedule) :
    List.Pairwise (fun a b => a.Pts = b.Pts → a.GD = b.GD → a.GF = b.GF →
      pyStrLt a.Team b.Team = true) (compute_ranking schedule) := by
  rcases compute_ranking_shape schedule with h | ⟨ms, h⟩ <;> rw [h]
  · exact List.Pairwise.nil
  · unfold tableFromMatches
    exact (pairwise_rankedTable _).imp (fun hab h1 h2 h3 => hab.2 ⟨h1, h2, h3⟩)

/-- C10: `compute_table_from_schedule` demands the exact lowercase column
names: whenever any of `score`, `home_team`, `away_team` is absent
(case-sensitively), it raises the `ValueError` listing the missing names in
sorted order and produces no table — while `_find_column`, used by the
structured-pair resolver, matches case-insensitively and does accept
`Score`. -/
theorem compute_table_requires_exact_columns :
    (∀ schedule : FbSchedule, fbMissing schedule ≠ [] →
        compute_table_from_schedule schedule
          = .valueError ("Schedule is missing required columns: "
              ++ pyJoin ", " (fbMissing schedule))) ∧
    _find_column ["Score"] ["score"] = some "Score" ∧
    fbMissing ⟨["Score", "home_team", "away_team"], []⟩ = ["score"] := by
  refine ⟨?_, by decide, by decide⟩
  intro schedule hmiss
  unfold compute_table_from_schedule
  rw [if_pos hmiss]

/-- C10 witness: a schedule with `Score` capitalized is rejected with the
message naming the missing lowercase column. -/
theorem compute_table_requires_exact_columns_witness :
    compute_table_from_schedule ⟨["Score", "home_team", "away_team"], []⟩
      = .valueError "Schedule is missing required columns: score" :=
  compute_table_requires_exact_columns.1
    ⟨["Score", "home_team", "away_team"], []⟩ (by decide)

/-- C5 witness: the null-score exclusion applied to a concrete schedule. -/
theorem score_resolution_amended_witness :
    compute_table_from_schedule ⟨["score", "home_team", "away_team"],
        [⟨none, "X", "Y"⟩, ⟨some "2-1", "A", "B"⟩]⟩
      = compute_table_from_schedule ⟨["score", "home_team", "away_team"],
        [⟨some "2-1", "A", "B"⟩]⟩ :=
  score_resolution_amended.1 ["score", "home_team", "away_team"] "X" "Y"
    [⟨some "2-1", "A", "B"⟩]
